import Mathlib

/-!
Shallow embedding of the etk.docking core (dockgroup.py, docklayout.py,
util.py) and proofs about it.

Widgets are identified by natural-number ids (object identity in Python).
Python exceptions are modelled with `Option`: `none` means the call raised.
All integer arithmetic from the source is carried out on `Int`, matching
Python's unbounded integers.
-/

namespace EtkDocking

/-! ## DockGroup: item management (dockgroup.py)

A `_DockGroupTab` owns a `DockItem` (`item`).  For the item-management API
only the item identity matters, so the group state tracks the ordered list
of item ids, the visible-tab list, the current index and the current item,
exactly the fields `_tabs`, `_visible_tabs`, `_current_index` and
`_current_item` of `DockGroup`.
-/

/-- The kinds of Python object that can be handed to `DockGroup.do_remove`:
a `DockItem` widget, a `_DockGroupTab` bookkeeping object (what
`remove_item` actually passes), or any other widget. -/
inductive PyWidget where
  | dockItem (item : Nat)
  | tabObject (item : Nat)
  | otherWidget (id : Nat)
deriving DecidableEq

/-- The `isinstance(widget, DockItem)` test. -/
def PyWidget.isDockItem : PyWidget → Bool
  | .dockItem _ => true
  | _ => false

/-- State of a `DockGroup`: `_tabs` (item ids in display order),
`_visible_tabs`, `_current_index`, `_current_item`. -/
structure DockGroupState where
  tabs : List Nat
  visibleTabs : List Nat
  currentIndex : Option Nat
  currentItem : Option Nat
deriving DecidableEq

/-- The state of a freshly constructed `DockGroup` (`__init__`). -/
def initialGroup : DockGroupState :=
  { tabs := [], visibleTabs := [], currentIndex := none, currentItem := none }

/-- `DockGroup.item_num`: index of the first tab whose `item` equals the
given widget, `None` if absent. -/
def item_num (g : DockGroupState) (item : Nat) : Option Nat :=
  g.tabs.findIdx? (fun t => t = item)

/-- `DockGroup.set_current_item`: clamps the requested index into
`[0, len(tabs) - 1]` on a non-empty group, and resets both the current
index and the current item to `None` on an empty group. -/
def set_current_item (g : DockGroupState) (n : Int) : DockGroupState :=
  if g.tabs ≠ [] then
    let ci : Nat :=
      if n < 0 then 0
      else if n > (g.tabs.length : Int) - 1 then g.tabs.length - 1
      else n.toNat
    { g with currentIndex := some ci, currentItem := some (g.tabs.getD ci 0) }
  else
    { g with currentIndex := none, currentItem := none }

/-- `DockGroup.get_current_item`: returns `_current_index` when
`_current_item` is set (a widget is always truthy), else `None`. -/
def get_current_item (g : DockGroupState) : Option Nat :=
  match g.currentItem with
  | some _ => g.currentIndex
  | none => none

/-- `DockGroup.get_n_items`. -/
def get_n_items (g : DockGroupState) : Nat :=
  g.tabs.length

/-- `DockGroup.do_add`: raises (`none`) unless the widget is a `DockItem`;
otherwise appends a fresh tab for it and selects it via
`set_current_item(item_num(widget))`. -/
def do_add (g : DockGroupState) (w : PyWidget) : Option DockGroupState :=
  match w with
  | .dockItem item =>
      let g1 := { g with tabs := g.tabs ++ [item] }
      some (set_current_item g1 (((item_num g1 item).getD 0 : Nat) : Int))
  | _ => none

/-- `DockGroup.append_item`: `self.add(item)`, i.e. `do_add` on the item. -/
def append_item (g : DockGroupState) (item : Nat) : Option DockGroupState :=
  do_add g (.dockItem item)

/-- `DockGroup.do_remove`: only acts when the widget is a `DockItem` and
the tab list is non-empty.  Looks the item up (`_tabs[None]` raises, i.e.
`none`, when absent), drops the tab from `_visible_tabs` and `_tabs`,
destroys its child widgets, and re-selects via
`set_current_item(index)` where `index` is decremented when the removed
index preceded the current one (in Python 2, `index < None` is `False`,
matching the `Option.rec` fallthrough here). -/
def do_remove (g : DockGroupState) (w : PyWidget) : Option DockGroupState :=
  match w with
  | .dockItem item =>
      if g.tabs ≠ [] then
        match item_num g item with
        | none => none
        | some index =>
            let tab := g.tabs.getD index 0
            let g1 := { g with
              visibleTabs := g.visibleTabs.erase tab,
              tabs := g.tabs.eraseIdx index }
            let index2 : Nat :=
              match g.currentIndex with
              | some c => if index < c then c - 1 else index
              | none => index
            some (set_current_item g1 (index2 : Int))
      else some g
  | _ => some g

/-- `DockGroup.remove_item(item_num)`: evaluates `self._tabs[item_num]`
(raising `IndexError`, i.e. `none`, when out of range) and passes that
`_DockGroupTab` object — not its `DockItem` — to `self.remove`, which ends
up in `do_remove`. -/
def remove_item (g : DockGroupState) (n : Nat) : Option DockGroupState :=
  match g.tabs[n]? with
  | none => none
  | some tab => do_remove g (.tabObject tab)

/-- The selection invariant of the spec: the current index is `None` iff
there are no tabs, and otherwise it is in range with the current item
equal to the item of the tab it points at. -/
def selectionInvariant (g : DockGroupState) : Prop :=
  (g.currentIndex = none ↔ g.tabs = []) ∧
  (∀ c ∈ g.currentIndex,
    c < g.tabs.length ∧ g.currentItem = some (g.tabs.getD c 0))

instance (g : DockGroupState) : Decidable (selectionInvariant g) := by
  unfold selectionInvariant
  infer_instance

/-- States of a `DockGroup` reachable through the public operations
`append_item`, `remove_item` and `set_current_item` from a fresh group. -/
inductive ReachableGroup : DockGroupState → Prop where
  | init : ReachableGroup initialGroup
  | append {g g' : DockGroupState} {item : Nat} :
      ReachableGroup g → append_item g item = some g' → ReachableGroup g'
  | removeIdx {g g' : DockGroupState} {n : Nat} :
      ReachableGroup g → remove_item g n = some g' → ReachableGroup g'
  | setCur {g : DockGroupState} (n : Int) :
      ReachableGroup g → ReachableGroup (set_current_item g n)

/-! ## DockGroup: tab visibility and the tab strip layout pass
(`do_size_allocate`, dockgroup.py lines 255-417)

A tab as the layout pass sees it: its identity, its current `area.width`
(set by `do_size_request`, possibly overwritten by a previous allocate
pass), and the child requisitions of its image, label and close button.
Requisition heights are carried because `do_size_allocate` unpacks the
button requisition as `(bh, bw) = tab.button.get_child_requisition()`,
so the name `bw` there actually holds the button's requisition height. -/
structure TabR where
  id : Nat
  width : Int
  reqIW : Int
  reqLW : Int
  reqBW : Int
  reqBH : Int
deriving DecidableEq

/-- Placeholder tab used for the (never exercised) out-of-range list
accesses of the embedding. -/
def dummyTab : TabR := { id := 0, width := 0, reqIW := 0, reqLW := 0, reqBW := 0, reqBH := 0 }

/-- The inputs of a layout pass that do not vary per tab: the allocation
width, the decoration button requisition widths (`max_w`, `min_w`,
`list_w`) and the `_frame_width` / `_spacing` constants. -/
structure AllocParams where
  allocW : Int
  maxW : Int
  minW : Int
  listW : Int
  fw : Int
  sp : Int
deriving DecidableEq

/-- First admission loop of `do_size_allocate`: walks
`reversed(self._tabs[:self._current_index])`, admitting a tab while width
remains and fewer than `max_tabs_before_current` tabs have been admitted,
and stopping at the first tab that fails either test.  Returns the
admitted tabs in display order (each Python iteration inserts at the
front), the remaining width, and the final `count`. -/
def admitLeft : List TabR → Int → Nat → Nat → List TabR × Int × Nat
  | [], avail, _, count => ([], avail, count)
  | t :: rest, avail, maxBefore, count =>
      if avail - t.width ≥ 0 then
        if count < maxBefore then
          let r := admitLeft rest (avail - t.width) maxBefore (count + 1)
          (r.1 ++ [t], r.2.1, r.2.2)
        else ([], avail, count)
      else ([], avail, count)

/-- Second admission loop: walks `self._tabs[self._current_index + 1:]`,
appending tabs while width remains. -/
def admitRight : List TabR → Int → List TabR × Int
  | [], avail => ([], avail)
  | t :: rest, avail =>
      if avail - t.width ≥ 0 then
        let r := admitRight rest (avail - t.width)
        (t :: r.1, r.2)
      else ([], avail)

/-- Third admission loop: walks
`reversed(self._tabs[:self._current_index - count])`, admitting skipped
left tabs into the remaining width, inserting at the front. -/
def admitExtra : List TabR → Int → List TabR × Int
  | [], avail => ([], avail)
  | t :: rest, avail =>
      if avail - t.width ≥ 0 then
        let r := admitExtra rest (avail - t.width)
        (r.1 ++ [t], r.2)
      else ([], avail)

/-- The `max_tabs_before_current` stabilisation value: the position of the
current tab in the previous visible list when it is there, otherwise
`len(self._tabs)`. -/
def maxTabsBeforeCurrent (tabs visPrev : List TabR) (curTab : TabR) : Nat :=
  if visPrev ≠ [] ∧ curTab ∈ visPrev then visPrev.indexOf curTab else tabs.length

/-- The visible-tab selection of `do_size_allocate` (lines 271-320):
resets `_visible_tabs`, computes the available width left of the
decoration buttons after reserving the current tab, then runs the three
admission loops around the always-visible current tab. -/
def computeVisibleTabs (p : AllocParams) (tabs : List TabR) (cur : Nat)
    (visPrev : List TabR) : List TabR :=
  let curTab := tabs.getD cur dummyTab
  let m := maxTabsBeforeCurrent tabs visPrev curTab
  let avail0 := p.allocW - p.fw - p.sp - p.maxW - p.minW - p.listW - p.sp - curTab.width
  let l1 := admitLeft ((tabs.take cur).reverse) avail0 m 0
  let l2 := admitRight (tabs.drop (cur + 1)) l1.2.1
  let l3 := admitExtra ((tabs.take (cur - l1.2.2)).reverse) l2.2
  l3.1 ++ l1.1 ++ curTab :: l2.1

/-- The tab-strip width left once the frame, spacing and the three
decoration buttons are reserved: `allocation.width - self._frame_width -
self._spacing - max_w - min_w - list_w - self._spacing`. -/
def stripWidth (p : AllocParams) : Int :=
  p.allocW - p.fw - p.sp - p.maxW - p.minW - p.listW - p.sp

/-- The `normal` width recomputed in the lone-tab branch of
`do_size_allocate`.  Note that the source unpacks
`(bh, bw) = tab.button.get_child_requisition()`, so the `bw` it sums here
is the button's requisition height. -/
def loneNormalWidth (p : AllocParams) (t : TabR) : Int :=
  p.fw + p.sp + t.reqIW + p.sp + t.reqLW + p.sp + t.reqBH + p.sp + p.fw

/-- The part of `do_size_allocate` the claims are about: the visible-tab
selection followed by the lone-tab width recalculation (lines 322-338).
Returns the updated `_tabs` and `_visible_tabs`.  When the current tab is
the only visible one and the strip width does not exceed `normal`, its
`area.width` is overwritten with the strip width; the Python mutation of
the shared tab object is rendered by rewriting the record in both lists. -/
def do_size_allocate_tabs (p : AllocParams) (tabs : List TabR) (cur : Nat)
    (visPrev : List TabR) : List TabR × List TabR :=
  let visible := computeVisibleTabs p tabs cur visPrev
  if visible.length = 1 then
    let t := tabs.getD cur dummyTab
    if stripWidth p ≤ loneNormalWidth p t then
      let t' := { t with width := stripWidth p }
      (tabs.set cur t', visible.map (fun v => if v = t then t' else v))
    else (tabs, visible)
  else (tabs, visible)

/-! ## Drag-and-drop coordination layer (docklayout.py) -/

/-- The `DragData` named tuple: the resolved drop widget and the optional
`leave` and `received` callbacks, identified by id. -/
structure DragData where
  dropWidget : Nat
  leave : Option Nat
  received : Option Nat
deriving DecidableEq

/-- The callbacks run by `DockLayout.on_widget_drag_leave`: the tracked
session's `leave` callback when a session is tracked and it has one. -/
def leaveCallbackRuns (st : Option DragData) : List Nat :=
  match st with
  | some d => match d.leave with | some c => [c] | none => []
  | none => []

/-- `DockLayout.on_widget_drag_motion`: `drag_motion` resolution is
abstracted as the resolved `Option DragData` argument `newData`.  The
handler compares the new drop widget with the tracked one (`is not`,
object identity, here id equality on the `Option`) and, when they differ,
runs `on_widget_drag_leave` on the old session and stores the new one.
Returns the new session slot and the leave callbacks that ran. -/
def on_widget_drag_motion (st newData : Option DragData) :
    Option DragData × List Nat :=
  if newData.map (fun d => d.dropWidget) ≠ st.map (fun d => d.dropWidget) then
    (newData, leaveCallbackRuns st)
  else (st, [])

/-- Outcome of `DockLayout.on_widget_drag_data_received`: whether the
handler let an exception escape, the final `_drag_data` slot, and whether
the `received` callback was invoked. -/
structure DataReceivedOutcome where
  raisedExc : Bool
  finalSession : Option DragData
  callbackInvoked : Bool
deriving DecidableEq

/-- `DockLayout.on_widget_drag_data_received`: with no session,
`drag_data.received` on `None` raises; with a session lacking a
`received` callback, `assert drag_data.received` raises; otherwise the
callback runs (the parameter `callbackRaises` abstracts its behaviour)
inside `try/finally`, so `_drag_data` is cleared whether or not it
raises. -/
def on_widget_drag_data_received (st : Option DragData) (callbackRaises : Bool) :
    DataReceivedOutcome :=
  match st with
  | none => { raisedExc := true, finalSession := none, callbackInvoked := false }
  | some d =>
      match d.received with
      | none => { raisedExc := true, finalSession := some d, callbackInvoked := false }
      | some _ => { raisedExc := callbackRaises, finalSession := none, callbackInvoked := true }

/-- The widget tree as the drag handlers see it: each widget's parent and
each widget's current pointer position (`widget.get_pointer()`). -/
structure WidgetTree where
  parent : Nat → Option Nat
  pointer : Nat → Int × Int

/-- `_propagate_to_parent`: calls `func` on the parent at the parent's own
pointer position, or returns `None` when there is no parent. -/
def propagate_to_parent (T : WidgetTree) (func : Nat → Int → Int → Option DragData)
    (w : Nat) : Option DragData :=
  match T.parent w with
  | some p => func p (T.pointer p).1 (T.pointer p).2
  | none => none

/-- `with_magic_borders`: the wrapped handler first propagates
`magic_borders` to the parent and returns `handled or func(...)`.  A
`DragData` named tuple is always truthy, so the body `func` runs exactly
when the propagation produced `None`. -/
def with_magic_borders (T : WidgetTree)
    (magicBorders func : Nat → Int → Int → Option DragData)
    (w : Nat) (x y : Int) : Option DragData :=
  match propagate_to_parent T magicBorders w with
  | some d => some d
  | none => func w x y

/-! ## Signal handler registration (docklayout.py lines 61-107)

The widget tree is modelled as a mutually inductive rose tree so that
`widget.foreach` recursion is structural.  `_signal_handlers` is an
association list from widget id to the connected signal handler ids; a
Python dict assignment is a cons (lookups see the newest binding) and a
`del` removes the binding. -/

mutual
inductive GtkWidget : Type where
  | leaf (id : Nat)
  | container (id : Nat) (children : GtkWidgetList)
inductive GtkWidgetList : Type where
  | nil
  | cons (w : GtkWidget) (ws : GtkWidgetList)
end

/-- Id of a widget. -/
def GtkWidget.wid : GtkWidget → Nat
  | .leaf i => i
  | .container i _ => i

/-- The eight signals `add_signal_handlers` connects, by position in the
source's tuple list (`add`, `remove`, `drag_motion`, `drag-leave`,
`drag-drop`, `drag-data-received`, `drag-end`, `drag-failed`). -/
def allSignals : List Nat := [0, 1, 2, 3, 4, 5, 6, 7]

/-- The `_signal_handlers` map. -/
abbrev SigMap := List (Nat × List Nat)

/-- Dict lookup, newest binding first. -/
def lookupSig : SigMap → Nat → Option (List Nat)
  | [], _ => none
  | (k, v) :: rest, i => if k = i then some v else lookupSig rest i

/-- Dict `del`. -/
def eraseSig : SigMap → Nat → SigMap
  | [], _ => []
  | (k, v) :: rest, i => if k = i then eraseSig rest i else (k, v) :: eraseSig rest i

/-- The truthiness test `self._signal_handlers.get(widget)`: true exactly
when an entry exists and is a non-empty set. -/
def hasTruthyEntry (m : SigMap) (i : Nat) : Bool :=
  match lookupSig m i with
  | some s => !s.isEmpty
  | none => false

mutual
/-- `DockLayout.add_signal_handlers`: returns at once when
`self._signal_handlers.get(widget)` is truthy; otherwise connects the
eight signals, stores the handler set, and recurses over the children of
a container via `widget.foreach`.  The second component lists the
(widget, signal) connections made. -/
def addSignalHandlers : SigMap → GtkWidget → SigMap × List (Nat × Nat)
  | m, .leaf i =>
      if hasTruthyEntry m i then (m, [])
      else ((i, allSignals) :: m, allSignals.map (fun s => (i, s)))
  | m, .container i cs =>
      if hasTruthyEntry m i then (m, [])
      else
        let conns := allSignals.map (fun s => (i, s))
        let r := addSignalHandlersList ((i, allSignals) :: m) cs
        (r.1, conns ++ r.2)
def addSignalHandlersList : SigMap → GtkWidgetList → SigMap × List (Nat × Nat)
  | m, .nil => (m, [])
  | m, .cons c cs =>
      let r := addSignalHandlers m c
      let r2 := addSignalHandlersList r.1 cs
      (r2.1, r.2 ++ r2.2)
end

mutual
/-- `DockLayout.remove_signal_handlers`: a missing entry (`KeyError`) is
passed over silently; otherwise the stored handlers are disconnected, the
entry deleted, and the children of a container visited.  The second
component lists the handler ids disconnected. -/
def removeSignalHandlers : SigMap → GtkWidget → SigMap × List Nat
  | m, .leaf i =>
      match lookupSig m i with
      | none => (m, [])
      | some s => (eraseSig m i, s)
  | m, .container i cs =>
      match lookupSig m i with
      | none => (m, [])
      | some s =>
          let r := removeSignalHandlersList (eraseSig m i) cs
          (r.1, s ++ r.2)
def removeSignalHandlersList : SigMap → GtkWidgetList → SigMap × List Nat
  | m, .nil => (m, [])
  | m, .cons c cs =>
      let r := removeSignalHandlers m c
      let r2 := removeSignalHandlersList r.1 cs
      (r2.1, r.2 ++ r2.2)
end

/-- Every entry of the map holds the eight-signal handler set.  This is an
invariant of all maps the layout ever builds, since `add_signal_handlers`
only ever stores `allSignals` and `remove_signal_handlers` only deletes. -/
def sigMapWellFormed (m : SigMap) : Prop :=
  ∀ p ∈ m, (p : Nat × List Nat).2 = allSignals

/-- `_signal_handlers` maps reachable from the empty map through
`add_signal_handlers` and `remove_signal_handlers` calls. -/
inductive ReachableSigMap : SigMap → Prop where
  | init : ReachableSigMap []
  | add {m : SigMap} (w : GtkWidget) :
      ReachableSigMap m → ReachableSigMap (addSignalHandlers m w).1
  | remove {m : SigMap} (w : GtkWidget) :
      ReachableSigMap m → ReachableSigMap (removeSignalHandlers m w).1

/-! # Theorems -/

/-! ### Helper lemmas about the selection state machine -/

theorem set_current_item_invariant (g : DockGroupState) (n : Int) :
    selectionInvariant (set_current_item g n) := by
  unfold set_current_item selectionInvariant
  by_cases h : g.tabs = []
  · simp [h]
  · have hlen : 0 < g.tabs.length := List.length_pos.mpr h
    simp only [h, ne_eq, not_false_eq_true, if_true]
    constructor
    · simp [h]
    · intro c hc
      simp only [Option.mem_def, Option.some.injEq] at hc
      subst hc
      refine ⟨?_, rfl⟩
      by_cases h1 : n < 0
      · simpa [h1] using hlen
      · by_cases h2 : n > (g.tabs.length : Int) - 1
        · simp [h1, h2]
          omega
        · simp only [h1, if_false, h2]
          push_neg at h1 h2
          omega

theorem remove_item_unchanged (g : DockGroupState) (n : Nat) (g' : DockGroupState)
    (h : remove_item g n = some g') : g' = g := by
  unfold remove_item at h
  cases hn : g.tabs[n]? with
  | none => rw [hn] at h; exact absurd h (by simp)
  | some tab =>
      rw [hn] at h
      unfold do_remove at h
      simpa using h.symm

theorem append_item_eq (g : DockGroupState) (item : Nat) (g' : DockGroupState)
    (h : append_item g item = some g') :
    ∃ m : Int, g' = set_current_item { g with tabs := g.tabs ++ [item] } m := by
  unfold append_item do_add at h
  exact ⟨_, (by simpa using h.symm)⟩

/-! ### Claim C2 -/

/-- C2: in every `DockGroup` state reachable through the public operations
`append_item`, `remove_item` and `set_current_item`, the current index is
`None` iff the tab sequence is empty, and otherwise it is a valid index
with the current item equal to the item of the tab it points at. -/
theorem c2_selection_invariant_reachable (g : DockGroupState)
    (h : ReachableGroup g) : selectionInvariant g := by
  induction h with
  | init => decide
  | append hg happ ih =>
      obtain ⟨m, hm⟩ := append_item_eq _ _ _ happ
      rw [hm]
      exact set_current_item_invariant _ _
  | removeIdx hg hrem ih =>
      rw [remove_item_unchanged _ _ _ hrem]
      exact ih
  | setCur n hg ih => exact set_current_item_invariant _ _

/-- Witness for C2: the invariant holds at the concrete reachable state
obtained by appending item 7 to a fresh group and then selecting index 5
(which clamps to 0). -/
theorem c2_selection_invariant_reachable_witness :
    selectionInvariant (set_current_item ⟨[7], [], some 0, some 7⟩ 5) :=
  c2_selection_invariant_reachable _
    (ReachableGroup.setCur 5
      (@ReachableGroup.append initialGroup ⟨[7], [], some 0, some 7⟩ 7
        ReachableGroup.init (by decide)))

/-! ### Claim C5 -/

/-- C5: `set_current_item` on a non-empty group selects index 0 for a
negative argument, the last index for an argument at or past the count,
and the argument itself when in range; on an empty group it leaves the
current index and current item at `None`. -/
theorem c5_set_current_item_clamps (g : DockGroupState) (n : Int) :
    (g.tabs ≠ [] → n < 0 → (set_current_item g n).currentIndex = some 0) ∧
    (g.tabs ≠ [] → (g.tabs.length : Int) ≤ n →
      (set_current_item g n).currentIndex = some (g.tabs.length - 1)) ∧
    (g.tabs ≠ [] → 0 ≤ n → n < (g.tabs.length : Int) →
      (set_current_item g n).currentIndex = some n.toNat) ∧
    (g.tabs = [] → (set_current_item g n).currentIndex = none ∧
      (set_current_item g n).currentItem = none) := by
  refine ⟨?_, ?_, ?_, ?_⟩
  · intro h hneg
    simp [set_current_item, h, hneg]
  · intro h hge
    have h1 : ¬ n < 0 := by
      have : (0 : Int) ≤ (g.tabs.length : Int) := by positivity
      omega
    have hlen : 0 < g.tabs.length := List.length_pos.mpr h
    have h2 : n > (g.tabs.length : Int) - 1 := by omega
    simp [set_current_item, h, h1, h2]
  · intro h h0 hlt
    have h1 : ¬ n < 0 := by omega
    have h2 : ¬ n > (g.tabs.length : Int) - 1 := by omega
    simp [set_current_item, h, h1, h2]
  · intro h
    simp [set_current_item, h]

/-- Witness for C5: instances of each clamping mode on concrete groups. -/
theorem c5_set_current_item_clamps_witness :
    (set_current_item ⟨[5, 6], [], some 0, some 5⟩ (-3)).currentIndex = some 0 ∧
    (set_current_item ⟨[5, 6], [], some 0, some 5⟩ 9).currentIndex = some 1 ∧
    (set_current_item ⟨[5, 6], [], some 0, some 5⟩ 1).currentIndex = some 1 ∧
    (set_current_item initialGroup 4).currentIndex = none := by
  refine ⟨?_, ?_, ?_, ?_⟩
  · exact (c5_set_current_item_clamps _ (-3)).1 (by decide) (by decide)
  · exact (c5_set_current_item_clamps _ 9).2.1 (by decide) (by decide)
  · exact (c5_set_current_item_clamps _ 1).2.2.1 (by decide) (by decide) (by decide)
  · exact ((c5_set_current_item_clamps initialGroup 4).2.2.2 (by decide)).1

/-! ### Claim C9 -/

/-- C9: `do_remove` with any widget that is not a `DockItem` (for example
a `_DockGroupTab` bookkeeping object) returns without raising and leaves
the whole group state — tabs, visible tabs, current index, current item —
exactly unchanged. -/
theorem c9_do_remove_non_dockitem (g : DockGroupState) (w : PyWidget)
    (h : w.isDockItem = false) : do_remove g w = some g := by
  cases w with
  | dockItem item => simp [PyWidget.isDockItem] at h
  | tabObject t => rfl
  | otherWidget i => rfl

/-- Witness for C9: removing a `_DockGroupTab` object from a concrete
two-item group leaves the state untouched. -/
theorem c9_do_remove_non_dockitem_witness :
    do_remove ⟨[1, 2], [1, 2], some 0, some 1⟩ (.tabObject 1) =
      some ⟨[1, 2], [1, 2], some 0, some 1⟩ :=
  c9_do_remove_non_dockitem _ (.tabObject 1) rfl

/-! ### Claim C1 -/

/-- C1 (code-bug evidence): `remove_item(1)` on a three-item group with
current index 1 does not remove anything — `remove_item` passes the
`_DockGroupTab` bookkeeping object instead of its `DockItem` to
`self.remove`, so `do_remove`'s `isinstance(widget, DockItem)` test fails
and the state is returned unchanged, contradicting `remove_item`'s own
docstring. -/
theorem c1_remove_item_noop_on_failing_input :
    remove_item ⟨[10, 20, 30], [10, 20, 30], some 1, some 20⟩ 1 =
      some ⟨[10, 20, 30], [10, 20, 30], some 1, some 20⟩ := by decide

/-! ### Claim C6 -/

/-- C6: a handler wrapped by `with_magic_borders` first resolves the
parent's `magic_borders` at the parent's pointer position; the wrapped
body runs — and determines the result — exactly when there is no parent
or the parent resolution returns `None`, and when the parent answers,
that answer is returned unchanged whatever the body would have done. -/
theorem c6_with_magic_borders_parent_first (T : WidgetTree)
    (magicB func : Nat → Int → Int → Option DragData) (w : Nat) (x y : Int) :
    (T.parent w = none → with_magic_borders T magicB func w x y = func w x y) ∧
    (∀ p, T.parent w = some p →
      magicB p (T.pointer p).1 (T.pointer p).2 = none →
      with_magic_borders T magicB func w x y = func w x y) ∧
    (∀ p d, T.parent w = some p →
      magicB p (T.pointer p).1 (T.pointer p).2 = some d →
      ∀ func2 : Nat → Int → Int → Option DragData,
        with_magic_borders T magicB func2 w x y = some d) := by
  refine ⟨?_, ?_, ?_⟩
  · intro h
    simp [with_magic_borders, propagate_to_parent, h]
  · intro p hp hm
    simp [with_magic_borders, propagate_to_parent, hp, hm]
  · intro p d hp hm func2
    simp [with_magic_borders, propagate_to_parent, hp, hm]

/-- Witness for C6: in a two-widget tree where widget 1's parent 0 answers
the magic-border query with a `DragData` for widget 42, the wrapped
handler returns that answer unchanged, for a body that would have
answered widget 7. -/
theorem c6_with_magic_borders_parent_first_witness :
    with_magic_borders
      ⟨fun w => if w = 1 then some 0 else none, fun _ => (5, 5)⟩
      (fun p _ _ => if p = 0 then some ⟨42, none, none⟩ else none)
      (fun _ _ _ => some ⟨7, none, none⟩) 1 2 3 = some ⟨42, none, none⟩ :=
  (c6_with_magic_borders_parent_first
    ⟨fun w => if w = 1 then some 0 else none, fun _ => (5, 5)⟩
    (fun p _ _ => if p = 0 then some ⟨42, none, none⟩ else none)
    (fun _ _ _ => some ⟨7, none, none⟩) 1 2 3).2.2 0 ⟨42, none, none⟩ rfl rfl
    (fun _ _ _ => some ⟨7, none, none⟩)

/-! ### Claim C7 -/

/-- C7: `on_widget_drag_motion` replaces the tracked drag session exactly
when the newly resolved drop widget differs from the tracked one; in that
case the old session's `leave` callback (when present) runs exactly once,
computed from the session before replacement; a motion resolving to the
same drop target leaves the session untouched and runs no leave
callback. -/
theorem c7_drag_motion_session_replacement (st nd : Option DragData) :
    (nd.map (fun d => d.dropWidget) = st.map (fun d => d.dropWidget) →
      on_widget_drag_motion st nd = (st, [])) ∧
    (nd.map (fun d => d.dropWidget) ≠ st.map (fun d => d.dropWidget) →
      (on_widget_drag_motion st nd).1 = nd ∧
      (on_widget_drag_motion st nd).2 = leaveCallbackRuns st ∧
      (∀ d c, st = some d → d.leave = some c →
        (on_widget_drag_motion st nd).2 = [c]) ∧
      (st = none → (on_widget_drag_motion st nd).2 = [])) := by
  constructor
  · intro h
    simp [on_widget_drag_motion, h]
  · intro h
    refine ⟨?_, ?_, ?_, ?_⟩
    · simp [on_widget_drag_motion, h]
    · simp [on_widget_drag_motion, h]
    · intro d c hd hc
      subst hd
      unfold on_widget_drag_motion
      rw [if_pos h]
      simp [leaveCallbackRuns, hc]
    · intro hst
      subst hst
      unfold on_widget_drag_motion
      rw [if_pos h]
      simp [leaveCallbackRuns]

/-- Witness for C7: moving from a session targeting widget 1 (leave
callback 9) to a resolution targeting widget 2 stores the new session and
runs callback 9 exactly once; a motion resolving again to widget 1 leaves
the original session untouched. -/
theorem c7_drag_motion_session_replacement_witness :
    on_widget_drag_motion (some ⟨1, some 9, none⟩) (some ⟨1, some 8, some 3⟩) =
      (some ⟨1, some 9, none⟩, []) ∧
    (on_widget_drag_motion (some ⟨1, some 9, none⟩) (some ⟨2, none, none⟩)).1 =
      some ⟨2, none, none⟩ ∧
    (on_widget_drag_motion (some ⟨1, some 9, none⟩) (some ⟨2, none, none⟩)).2 = [9] := by
  refine ⟨?_, ?_, ?_⟩
  · exact (c7_drag_motion_session_replacement (some ⟨1, some 9, none⟩)
      (some ⟨1, some 8, some 3⟩)).1 (by decide)
  · exact ((c7_drag_motion_session_replacement (some ⟨1, some 9, none⟩)
      (some ⟨2, none, none⟩)).2 (by decide)).1
  · exact ((c7_drag_motion_session_replacement (some ⟨1, some 9, none⟩)
      (some ⟨2, none, none⟩)).2 (by decide)).2.2.1 ⟨1, some 9, none⟩ 9 rfl rfl

/-! ### Claim C8 -/

/-- C8: `on_widget_drag_data_received` raises (rather than silently
proceeding) when no session is tracked or the session has no `received`
callback, and whenever the `received` callback is invoked the session
slot ends up cleared, both when the callback returns normally and when it
raises. -/
theorem c8_data_received_raises_and_clears (st : Option DragData) (b : Bool) :
    (st = none → (on_widget_drag_data_received st b).raisedExc = true ∧
      (on_widget_drag_data_received st b).callbackInvoked = false) ∧
    (∀ d, st = some d → d.received = none →
      (on_widget_drag_data_received st b).raisedExc = true ∧
      (on_widget_drag_data_received st b).callbackInvoked = false) ∧
    (∀ d c, st = some d → d.received = some c →
      (on_widget_drag_data_received st b).callbackInvoked = true ∧
      (on_widget_drag_data_received st b).finalSession = none) := by
  refine ⟨?_, ?_, ?_⟩
  · intro h
    simp [on_widget_drag_data_received, h]
  · intro d hd hr
    simp [on_widget_drag_data_received, hd, hr]
  · intro d c hd hr
    simp [on_widget_drag_data_received, hd, hr]

/-- Witness for C8: with no session the handler raises without invoking
anything, and with a session whose `received` callback is present the
slot is cleared both when the callback raises and when it returns. -/
theorem c8_data_received_raises_and_clears_witness :
    (on_widget_drag_data_received none false).raisedExc = true ∧
    (on_widget_drag_data_received (some ⟨1, none, some 4⟩) true).finalSession = none ∧
    (on_widget_drag_data_received (some ⟨1, none, some 4⟩) false).finalSession = none := by
  refine ⟨?_, ?_, ?_⟩
  · exact ((c8_data_received_raises_and_clears none false).1 rfl).1
  · exact ((c8_data_received_raises_and_clears (some ⟨1, none, some 4⟩) true).2.2
      ⟨1, none, some 4⟩ 4 rfl rfl).2
  · exact ((c8_data_received_raises_and_clears (some ⟨1, none, some 4⟩) false).2.2
      ⟨1, none, some 4⟩ 4 rfl rfl).2

/-! ### Lemmas on the admission loops of `do_size_allocate` -/

theorem admitLeft_suffix (xs : List TabR) (a : Int) (m c : Nat) :
    ∃ pre, pre ++ (admitLeft xs a m c).1 = xs.reverse := by
  induction xs generalizing a c with
  | nil => exact ⟨[], by simp [admitLeft]⟩
  | cons t rest ih =>
      by_cases h1 : a - t.width ≥ 0
      · by_cases h2 : c < m
        · obtain ⟨pre, hp⟩ := ih (a - t.width) (c + 1)
          refine ⟨pre, ?_⟩
          unfold admitLeft
          rw [if_pos h1, if_pos h2, List.reverse_cons]
          rw [← hp, List.append_assoc]
        · refine ⟨(t :: rest).reverse, ?_⟩
          unfold admitLeft
          rw [if_pos h1, if_neg h2]
          simp
      · refine ⟨(t :: rest).reverse, ?_⟩
        unfold admitLeft
        rw [if_neg h1]
        simp

theorem admitLeft_count (xs : List TabR) (a : Int) (m c : Nat) :
    (admitLeft xs a m c).2.2 = c + (admitLeft xs a m c).1.length := by
  induction xs generalizing a c with
  | nil => simp [admitLeft]
  | cons t rest ih =>
      by_cases h1 : a - t.width ≥ 0
      · by_cases h2 : c < m
        · unfold admitLeft
          rw [if_pos h1, if_pos h2]
          have := ih (a - t.width) (c + 1)
          simp only [List.length_append, List.length_cons, List.length_nil]
          omega
        · unfold admitLeft
          rw [if_pos h1, if_neg h2]
          simp
      · unfold admitLeft
        rw [if_neg h1]
        simp

theorem admitRight_front (xs : List TabR) (a : Int) :
    ∃ rest, (admitRight xs a).1 ++ rest = xs := by
  induction xs generalizing a with
  | nil => exact ⟨[], by simp [admitRight]⟩
  | cons t rest ih =>
      by_cases h1 : a - t.width ≥ 0
      · obtain ⟨r2, hr⟩ := ih (a - t.width)
        refine ⟨r2, ?_⟩
        unfold admitRight
        rw [if_pos h1]
        rw [List.cons_append, hr]
      · refine ⟨t :: rest, ?_⟩
        unfold admitRight
        rw [if_neg h1]
        simp

theorem admitExtra_suffix (xs : List TabR) (a : Int) :
    ∃ pre, pre ++ (admitExtra xs a).1 = xs.reverse := by
  induction xs generalizing a with
  | nil => exact ⟨[], by simp [admitExtra]⟩
  | cons t rest ih =>
      by_cases h1 : a - t.width ≥ 0
      · obtain ⟨pre, hp⟩ := ih (a - t.width)
        refine ⟨pre, ?_⟩
        unfold admitExtra
        rw [if_pos h1, List.reverse_cons]
        rw [← hp, List.append_assoc]
      · refine ⟨(t :: rest).reverse, ?_⟩
        unfold admitExtra
        rw [if_neg h1]
        simp

/-- The shape of the visible list built by the three admission loops, for
any intermediate available-width values: the extra tabs and the
stabilised left tabs form a contiguous suffix of the tabs left of the
current one, and the admitted right tabs a contiguous run after it, so
the whole visible list embeds into the tab list in order. -/
theorem visible_core_sublist (tabs : List TabR) (cur : Nat) (h : cur < tabs.length)
    (a0 a1 a2 : Int) (m : Nat) :
    ((admitExtra ((tabs.take (cur - (admitLeft ((tabs.take cur).reverse) a0 m 0).2.2)).reverse) a2).1
      ++ (admitLeft ((tabs.take cur).reverse) a0 m 0).1
      ++ tabs.getD cur dummyTab :: (admitRight (tabs.drop (cur + 1)) a1).1).Sublist tabs := by
  obtain ⟨pre, hpre⟩ := admitLeft_suffix ((tabs.take cur).reverse) a0 m 0
  rw [List.reverse_reverse] at hpre
  obtain ⟨rest, hrest⟩ := admitRight_front (tabs.drop (cur + 1)) a1
  have hcnt := admitLeft_count ((tabs.take cur).reverse) a0 m 0
  have hlen : (tabs.take cur).length = cur := by
    rw [List.length_take]
    omega
  have hprelen : pre.length = cur - (admitLeft ((tabs.take cur).reverse) a0 m 0).2.2 := by
    have := congrArg List.length hpre
    simp only [List.length_append] at this
    omega
  have htake : tabs.take (cur - (admitLeft ((tabs.take cur).reverse) a0 m 0).2.2) = pre := by
    rw [← hprelen]
    have h1 : pre.length ≤ cur := by omega
    calc tabs.take pre.length
        = (tabs.take cur).take pre.length := by
          rw [List.take_take]
          congr 1
          omega
      _ = (pre ++ (admitLeft ((tabs.take cur).reverse) a0 m 0).1).take pre.length := by
          rw [hpre]
      _ = pre := List.take_left' rfl
  rw [htake]
  obtain ⟨q, hq⟩ := admitExtra_suffix pre.reverse a2
  rw [List.reverse_reverse] at hq
  have hleft : ((admitExtra pre.reverse a2).1
      ++ (admitLeft ((tabs.take cur).reverse) a0 m 0).1).Sublist (tabs.take cur) := by
    have heq : q ++ ((admitExtra pre.reverse a2).1
        ++ (admitLeft ((tabs.take cur).reverse) a0 m 0).1) = tabs.take cur := by
      rw [← List.append_assoc, hq, hpre]
    have hsub := List.sublist_append_right q
      ((admitExtra pre.reverse a2).1 ++ (admitLeft ((tabs.take cur).reverse) a0 m 0).1)
    rw [heq] at hsub
    exact hsub
  have hright : (tabs.getD cur dummyTab
      :: (admitRight (tabs.drop (cur + 1)) a1).1).Sublist (tabs.drop cur) := by
    have hdrop : tabs.drop cur = tabs.getD cur dummyTab :: tabs.drop (cur + 1) := by
      rw [List.drop_eq_getElem_cons h]
      congr 1
      simp [List.getD_eq_getElem?_getD, List.getElem?_eq_getElem h]
    rw [hdrop]
    refine List.Sublist.cons₂ _ ?_
    have hsub := List.sublist_append_left (admitRight (tabs.drop (cur + 1)) a1).1 rest
    rw [hrest] at hsub
    exact hsub
  have hall := List.Sublist.append hleft hright
  rw [List.take_append_drop] at hall
  exact hall

/-! ### Claim C4 -/

/-- C4: the visible-tab list computed by a layout pass on a group with a
valid current index is a subsequence of the full tab list, preserving the
tabs' relative order, and it contains the current tab. -/
theorem c4_visible_tabs_sublist (p : AllocParams) (tabs : List TabR) (cur : Nat)
    (visPrev : List TabR) (h : cur < tabs.length) :
    (computeVisibleTabs p tabs cur visPrev).Sublist tabs ∧
    tabs.getD cur dummyTab ∈ computeVisibleTabs p tabs cur visPrev := by
  constructor
  · simp only [computeVisibleTabs]
    exact visible_core_sublist tabs cur h _ _ _ _
  · unfold computeVisibleTabs
    simp

/-- Witness for C4: a concrete pass over three tabs with current index 1
and a width admitting only the current tab. -/
theorem c4_visible_tabs_sublist_witness :
    (computeVisibleTabs ⟨100, 10, 10, 10, 1, 3⟩
      [⟨1, 50, 16, 20, 14, 14⟩, ⟨2, 50, 16, 20, 14, 14⟩, ⟨3, 50, 16, 20, 14, 14⟩] 1
      []).Sublist
      [⟨1, 50, 16, 20, 14, 14⟩, ⟨2, 50, 16, 20, 14, 14⟩, ⟨3, 50, 16, 20, 14, 14⟩] ∧
    ([⟨1, 50, 16, 20, 14, 14⟩, ⟨2, 50, 16, 20, 14, 14⟩,
      ⟨3, 50, 16, 20, 14, 14⟩] : List TabR).getD 1 dummyTab ∈
      computeVisibleTabs ⟨100, 10, 10, 10, 1, 3⟩
        [⟨1, 50, 16, 20, 14, 14⟩, ⟨2, 50, 16, 20, 14, 14⟩, ⟨3, 50, 16, 20, 14, 14⟩] 1 [] :=
  c4_visible_tabs_sublist ⟨100, 10, 10, 10, 1, 3⟩
    [⟨1, 50, 16, 20, 14, 14⟩, ⟨2, 50, 16, 20, 14, 14⟩, ⟨3, 50, 16, 20, 14, 14⟩] 1 []
    (by decide)

/-! ### Claim C3 -/

theorem append_append_cons_length_one {α : Type} {E L R : List α} {c : α}
    (h : (E ++ L ++ c :: R).length = 1) : E ++ L ++ c :: R = [c] := by
  simp only [List.length_append, List.length_cons] at h
  have hE : E = [] := List.length_eq_zero.mp (by omega)
  have hL : L = [] := List.length_eq_zero.mp (by omega)
  have hR : R = [] := List.length_eq_zero.mp (by omega)
  subst hE
  subst hL
  subst hR
  simp

theorem computeVisibleTabs_singleton (p : AllocParams) (tabs : List TabR) (cur : Nat)
    (visPrev : List TabR)
    (h1 : (computeVisibleTabs p tabs cur visPrev).length = 1) :
    computeVisibleTabs p tabs cur visPrev = [tabs.getD cur dummyTab] := by
  simp only [computeVisibleTabs] at h1 ⊢
  exact append_append_cons_length_one h1

/-- C3 counterexample: a group with a single tab of stored width 74 and
natural (recomputed) width 74, allocated 500 units of width.  The current
tab is the only visible tab, the remaining tab-strip width is 463, yet the
pass leaves the tab's display width at 74 — `do_size_allocate` only
assigns `tab.area.width = width` under `width <= normal`, so a lone tab
does not expand to fill the bar. -/
theorem c3_lone_tab_not_expanded_counterexample :
    (computeVisibleTabs ⟨500, 10, 10, 10, 1, 3⟩ [⟨1, 74, 16, 30, 14, 14⟩] 0 []).length = 1 ∧
    stripWidth ⟨500, 10, 10, 10, 1, 3⟩ = 463 ∧
    ((do_size_allocate_tabs ⟨500, 10, 10, 10, 1, 3⟩
      [⟨1, 74, 16, 30, 14, 14⟩] 0 []).1.getD 0 dummyTab).width = 74 := by decide

/-- C3 (amended): in a layout pass in which the current tab is the only
visible tab, its display width is set to the remaining tab-strip width
exactly when that width is at most the tab's recomputed natural width
(shrink to fit); otherwise both tab lists are returned unchanged, so a
lone tab never grows beyond its stored width. -/
theorem c3_lone_tab_width_amended (p : AllocParams) (tabs : List TabR) (cur : Nat)
    (visPrev : List TabR)
    (h1 : (computeVisibleTabs p tabs cur visPrev).length = 1) :
    (stripWidth p ≤ loneNormalWidth p (tabs.getD cur dummyTab) →
      (do_size_allocate_tabs p tabs cur visPrev).2 =
        [{ tabs.getD cur dummyTab with width := stripWidth p }] ∧
      (do_size_allocate_tabs p tabs cur visPrev).1 =
        tabs.set cur { tabs.getD cur dummyTab with width := stripWidth p }) ∧
    (¬ stripWidth p ≤ loneNormalWidth p (tabs.getD cur dummyTab) →
      do_size_allocate_tabs p tabs cur visPrev =
        (tabs, computeVisibleTabs p tabs cur visPrev)) := by
  have hv := computeVisibleTabs_singleton p tabs cur visPrev h1
  constructor
  · intro hle
    unfold do_size_allocate_tabs
    rw [hv]
    rw [if_pos (by simp : ([tabs.getD cur dummyTab] : List TabR).length = 1)]
    rw [if_pos hle]
    constructor
    · simp
    · rfl
  · intro hgt
    unfold do_size_allocate_tabs
    rw [hv]
    rw [if_pos (by simp : ([tabs.getD cur dummyTab] : List TabR).length = 1)]
    rw [if_neg hgt]

/-- Witness for C3 (amended): with allocation 100 the remaining strip
width 63 is below the natural width 74, and the lone tab is shrunk to
width 63 in both lists. -/
theorem c3_lone_tab_width_amended_witness :
    (do_size_allocate_tabs ⟨100, 10, 10, 10, 1, 3⟩ [⟨1, 74, 16, 30, 14, 14⟩] 0 []).2 =
      [⟨1, 63, 16, 30, 14, 14⟩] ∧
    (do_size_allocate_tabs ⟨100, 10, 10, 10, 1, 3⟩ [⟨1, 74, 16, 30, 14, 14⟩] 0 []).1 =
      [⟨1, 63, 16, 30, 14, 14⟩] := by
  have h := (c3_lone_tab_width_amended ⟨100, 10, 10, 10, 1, 3⟩
    [⟨1, 74, 16, 30, 14, 14⟩] 0 [] (by decide)).1 (by decide)
  exact ⟨h.1, h.2⟩

/-! ### Lemmas on the signal handler registry -/

theorem lookupSig_mem (m : SigMap) (i : Nat) (s : List Nat)
    (h : lookupSig m i = some s) : (i, s) ∈ m := by
  induction m with
  | nil => simp [lookupSig] at h
  | cons q rest ih =>
      obtain ⟨k, v⟩ := q
      by_cases hk : k = i
      · subst hk
        unfold lookupSig at h
        rw [if_pos rfl] at h
        simp only [Option.some.injEq] at h
        subst h
        exact List.mem_cons_self _ _
      · unfold lookupSig at h
        rw [if_neg hk] at h
        exact List.mem_cons_of_mem _ (ih h)

theorem eraseSig_subset (m : SigMap) (i : Nat) (q : Nat × List Nat)
    (h : q ∈ eraseSig m i) : q ∈ m := by
  induction m with
  | nil => simp [eraseSig] at h
  | cons e rest ih =>
      obtain ⟨k, v⟩ := e
      by_cases hk : k = i
      · rw [eraseSig, if_pos hk] at h
        exact List.mem_cons_of_mem _ (ih h)
      · rw [eraseSig, if_neg hk] at h
        rcases List.mem_cons.mp h with h1 | h1
        · simp [h1]
        · exact List.mem_cons_of_mem _ (ih h1)

theorem cons_allSignals_wf (m : SigMap) (i : Nat) (hm : sigMapWellFormed m) :
    sigMapWellFormed ((i, allSignals) :: m) := by
  intro q hq
  rcases List.mem_cons.mp hq with h1 | h1
  · simp [h1]
  · exact hm q h1

mutual
theorem addSignalHandlers_wf : ∀ (w : GtkWidget) (m : SigMap),
    sigMapWellFormed m → sigMapWellFormed (addSignalHandlers m w).1
  | .leaf i, m, hm => by
      unfold addSignalHandlers
      by_cases h : hasTruthyEntry m i = true
      · rw [if_pos h]
        exact hm
      · rw [if_neg h]
        exact cons_allSignals_wf m i hm
  | .container i cs, m, hm => by
      unfold addSignalHandlers
      by_cases h : hasTruthyEntry m i = true
      · rw [if_pos h]
        exact hm
      · rw [if_neg h]
        exact addSignalHandlersList_wf cs _ (cons_allSignals_wf m i hm)
theorem addSignalHandlersList_wf : ∀ (ws : GtkWidgetList) (m : SigMap),
    sigMapWellFormed m → sigMapWellFormed (addSignalHandlersList m ws).1
  | .nil, _m, hm => hm
  | .cons c cs, m, hm =>
      addSignalHandlersList_wf cs _ (addSignalHandlers_wf c m hm)
end

theorem eraseSig_wf (m : SigMap) (i : Nat) (hm : sigMapWellFormed m) :
    sigMapWellFormed (eraseSig m i) :=
  fun q hq => hm q (eraseSig_subset m i q hq)

mutual
theorem removeSignalHandlers_wf : ∀ (w : GtkWidget) (m : SigMap),
    sigMapWellFormed m → sigMapWellFormed (removeSignalHandlers m w).1
  | .leaf i, m, hm => by
      unfold removeSignalHandlers
      cases hl : lookupSig m i with
      | none => exact hm
      | some s => exact eraseSig_wf m i hm
  | .container i cs, m, hm => by
      unfold removeSignalHandlers
      cases hl : lookupSig m i with
      | none => exact hm
      | some s => exact removeSignalHandlersList_wf cs _ (eraseSig_wf m i hm)
theorem removeSignalHandlersList_wf : ∀ (ws : GtkWidgetList) (m : SigMap),
    sigMapWellFormed m → sigMapWellFormed (removeSignalHandlersList m ws).1
  | .nil, _m, hm => hm
  | .cons c cs, m, hm =>
      removeSignalHandlersList_wf cs _ (removeSignalHandlers_wf c m hm)
end

theorem reachableSigMap_wf (m : SigMap) (h : ReachableSigMap m) :
    sigMapWellFormed m := by
  induction h with
  | init => intro q hq; simp at hq
  | add w hr ih => exact addSignalHandlers_wf w _ ih
  | remove w hr ih => exact removeSignalHandlers_wf w _ ih

/-! ### Claim C10 -/

/-- C10: on any `_signal_handlers` map the layout can actually reach, a
widget without an entry makes `remove_signal_handlers` return without
raising, disconnecting nothing and leaving the map unchanged, and a
widget that already has an entry makes `add_signal_handlers` return
immediately with no additional subscriptions installed. -/
theorem c10_registration_guards (m : SigMap) (hm : ReachableSigMap m) (w : GtkWidget) :
    (lookupSig m w.wid = none → removeSignalHandlers m w = (m, [])) ∧
    (∀ s, lookupSig m w.wid = some s → addSignalHandlers m w = (m, [])) := by
  constructor
  · intro h
    cases w with
    | leaf i =>
        simp only [GtkWidget.wid] at h
        unfold removeSignalHandlers
        rw [h]
    | container i cs =>
        simp only [GtkWidget.wid] at h
        unfold removeSignalHandlers
        rw [h]
  · intro s hs
    have hall : s = allSignals :=
      reachableSigMap_wf m hm _ (lookupSig_mem m w.wid s hs)
    have ht : hasTruthyEntry m w.wid = true := by
      unfold hasTruthyEntry
      rw [hs, hall]
      rfl
    cases w with
    | leaf i =>
        simp only [GtkWidget.wid] at ht
        unfold addSignalHandlers
        rw [if_pos ht]
    | container i cs =>
        simp only [GtkWidget.wid] at ht
        unfold addSignalHandlers
        rw [if_pos ht]

/-- Witness for C10: on the reachable one-entry map for widget 3,
removing the unregistered widget 5 changes nothing and disconnects
nothing, and adding widget 3 again installs nothing. -/
theorem c10_registration_guards_witness :
    removeSignalHandlers [(3, allSignals)] (.leaf 5) = ([(3, allSignals)], []) ∧
    addSignalHandlers [(3, allSignals)] (.leaf 3) = ([(3, allSignals)], []) := by
  have hr : ReachableSigMap [(3, allSignals)] :=
    ReachableSigMap.add (GtkWidget.leaf 3) ReachableSigMap.init
  exact ⟨(c10_registration_guards _ hr (.leaf 5)).1 rfl,
    (c10_registration_guards _ hr (.leaf 3)).2 allSignals rfl⟩

end EtkDocking
